import Mathlib

/-!
Verification of the signed-URL worker in `src/index.ts`.

The worker is embedded shallowly: strings are Lean strings (sequences of
code points, which agrees with UTF-16 code units on the ASCII data the
worker manipulates), the clock value `Date.now()` is the exact number of
milliseconds as a natural number (JavaScript doubles represent these
exactly for every realizable clock reading), and byte buffers are lists of
naturals below 256.  The HMAC-SHA256 primitive provided by
`crypto.subtle` is an external collaborator and is modelled as an
arbitrary function from the key string and message string to a list of
MAC bytes; `crypto.subtle.verify` recomputes the MAC and compares it to
the received bytes, which is how it is modelled here.
-/

set_option autoImplicit false

namespace SignedUrls

/-- How long an HMAC token should be valid for, in seconds (line 6 of the
source: `const EXPIRY = 600`). -/
def EXPIRY : Nat := 600

/-! ### Decimal rendering of numbers

JavaScript renders the (integral, exactly representable) timestamp values
handled by the worker as plain decimal digit strings, both in the template
literals on lines 61, 73 and 87 and in `String(Number(s))`.  The rendering
is implemented with a structural fuel argument so that it evaluates inside
the kernel. -/

/-- The decimal digit character for a value below ten. -/
def digitChar (d : Nat) : Char := Char.ofNat (48 + d)

/-- Decimal digits of `n`, most significant first; `fuel` bounds the
recursion depth and is always called with `fuel > n`. -/
def natToDigitsAux : Nat → Nat → List Char
  | 0, _ => []
  | fuel + 1, n =>
    if n < 10 then [digitChar n]
    else natToDigitsAux fuel (n / 10) ++ [digitChar (n % 10)]

/-- Decimal rendering of a natural number, as produced by JavaScript for
integral doubles in the range the worker handles. -/
def natToString (n : Nat) : String := String.mk (natToDigitsAux (n + 1) n)

/-- Numeric value of a decimal digit character. -/
def digitVal (c : Char) : Nat := c.toNat - 48

/-- Value of a big-endian list of decimal digit characters. -/
def digitsToNat (l : List Char) : Nat := l.foldl (fun a c => a * 10 + digitVal c) 0

/-- Models the JavaScript conversion `Number(s)` (line 85) on the fragment
of inputs the worker is verified on: the empty string converts to `0` and
a non-empty string of decimal digits converts to its value, exactly as in
JavaScript; every other string is mapped to `none`, which stands for
`NaN`.  (JavaScript additionally accepts whitespace-padded, signed,
fractional, exponent, hexadecimal and `Infinity` forms; none of these can
round-trip against a MAC in the claims below, and they are outside the
modelled fragment.)  Note the substring fed to `Number` here never
contains a `-`, because it is a component of a split on `-`. -/
def jsNumber (s : String) : Option Nat :=
  if s.data.all Char.isDigit then some (digitsToNat s.data) else none

/-- Rendering of a JavaScript number in a template literal (line 87):
`NaN` prints as `"NaN"`, the integral values in the modelled fragment
print as decimal digits. -/
def jsNumToString : Option Nat → String
  | none => "NaN"
  | some n => natToString n

/-! ### JavaScript string operations used by the worker -/

/-- Models `s.startsWith(pre)` (lines 34, 53, 77). -/
def jsStartsWith (s pre : String) : Bool := pre.data.isPrefixOf s.data

/-- Models `s.substring(n)` (lines 35 and 116, where `n = 1`). -/
def jsSubstring (s : String) (n : Nat) : String := String.mk (s.data.drop n)

/-- Accumulator-passing splitter: `splitCharAux sep l acc` splits `l` at
every occurrence of `sep`, with `acc` holding the (reversed) characters of
the current component. -/
def splitCharAux (sep : Char) : List Char → List Char → List (List Char)
  | [], acc => [acc.reverse]
  | c :: cs, acc =>
    if c = sep then acc.reverse :: splitCharAux sep cs []
    else splitCharAux sep cs (c :: acc)

/-- Models `s.split(sep)` for a single-character separator (line 83):
the string is cut at every occurrence of `sep`; splitting the empty
string yields `[""]`, as in JavaScript. -/
def jsSplit (sep : Char) (s : String) : List String :=
  (splitCharAux sep s.data []).map String.mk

/-- Replace the first occurrence of `pat` in the character list. -/
def replaceFirstAux (pat rep : List Char) : List Char → List Char
  | [] => []
  | c :: cs =>
    if pat.isPrefixOf (c :: cs) then rep ++ (c :: cs).drop pat.length
    else c :: replaceFirstAux pat rep cs

/-- Models `s.replace(pat, rep)` with a string pattern (line 54), which in
JavaScript replaces only the first occurrence.  At its single call site
the string is guaranteed to start with the pattern `"/generate/"`, so the
first occurrence is the prefix itself. -/
def jsReplaceFirst (s pat rep : String) : String :=
  String.mk (replaceFirstAux pat.data rep.data s.data)

/-- Models the JavaScript truthiness idiom `x || d` applied to an optional
string (line 44 and 125, `object.httpMetadata?.contentType || "..."`):
a missing or empty string falls back to the default. -/
def jsOrDefault (x : Option String) (d : String) : String :=
  match x with
  | some s => if s = "" then d else s
  | none => d

/-! ### Base64 (`node:buffer`)

`Buffer.from(mac).toString("base64")` (line 71) produces standard base64
with `=` padding.  `Buffer.from(s, "base64")` (line 89) is the forgiving
Node decoder: characters outside the alphabet (including `=` padding and
whitespace) are skipped, the URL-safe aliases `-` and `_` are accepted,
and a trailing group of fewer than four alphabet characters contributes
its complete bytes (a single leftover character contributes nothing). -/

/-- The standard base64 alphabet. -/
def b64Alphabet : List Char :=
  "ABCDEFGHIJKLMNOPQRSTUVWXYZabcdefghijklmnopqrstuvwxyz0123456789+/".data

/-- Character for a 6-bit value. -/
def b64Char (v : Nat) : Char := b64Alphabet.getD v 'A'

/-- Decode a single character: alphabet characters and the URL-safe
aliases decode to their 6-bit value, everything else is skipped. -/
def decodeChar (c : Char) : Option Nat :=
  if c = '-' then some 62
  else if c = '_' then some 63
  else b64Alphabet.findIdx? (fun x => x = c)

/-- Encode bytes as base64 characters, three bytes to four characters,
padding the final group with `=`. -/
def encodeAux : List Nat → List Char
  | [] => []
  | [b1] => [b64Char (b1 / 4), b64Char (b1 % 4 * 16), '=', '=']
  | [b1, b2] => [b64Char (b1 / 4), b64Char (b1 % 4 * 16 + b2 / 16), b64Char (b2 % 16 * 4), '=']
  | b1 :: b2 :: b3 :: rest =>
    b64Char (b1 / 4) :: b64Char (b1 % 4 * 16 + b2 / 16) ::
      b64Char (b2 % 16 * 4 + b3 / 64) :: b64Char (b3 % 64) :: encodeAux rest

/-- Models `Buffer.from(bytes).toString("base64")` (line 71). -/
def base64Encode (bs : List Nat) : String := String.mk (encodeAux bs)

/-- Reassemble bytes from a list of 6-bit values, four values to three
bytes, with the Node treatment of a short trailing group. -/
def b64Group : List Nat → List Nat
  | v1 :: v2 :: v3 :: v4 :: rest =>
    (v1 * 4 + v2 / 16) :: (v2 % 16 * 16 + v3 / 4) :: (v3 % 4 * 64 + v4) :: b64Group rest
  | [v1, v2, v3] => [v1 * 4 + v2 / 16, v2 % 16 * 16 + v3 / 4]
  | [v1, v2] => [v1 * 4 + v2 / 16]
  | _ => []

/-- Models `Buffer.from(s, "base64")` (line 89) as a list of bytes. -/
def base64Decode (s : String) : List Nat :=
  b64Group (s.data.filterMap decodeChar)

/-! ### The protocol: canonical message, token issuance, verification

The HMAC primitive appears as a parameter `macFn : String → List Nat`,
standing for `msg => crypto.subtle.sign("HMAC", key, encode(msg))` with
the fixed imported key; `crypto.subtle.verify(..., receivedMac, msg)`
recomputes the MAC of `msg` under the same key and compares it byte-exactly
to `receivedMac`. -/

/-- The data that is authenticated (lines 61 and 87): request path and
decimal timestamp concatenated with no delimiter,
`const dataToAuthenticate = ` followed by the template
`${url.pathname}${timestamp}`. -/
def canonicalMessage (path : String) (timestamp : Nat) : String :=
  path ++ natToString timestamp

/-- The serialized token the `/generate/` branch embeds in the URL
(lines 56-73): `"<timestamp>-<base64Mac>"` where the MAC is computed over
the canonical message of the stripped path and the timestamp. -/
def signToken (macFn : String → List Nat) (path : String) (timestamp : Nat) : String :=
  natToString timestamp ++ "-" ++ base64Encode (macFn (canonicalMessage path timestamp))

/-- Possible outcomes of the inline verification sequence of the
protected branch (lines 83-113). -/
inductive VerifyOutcome where
  /-- The destructured `hmac` component is `undefined` because the raw
  parameter contains no `-`, and `Buffer.from(undefined, "base64")`
  throws a `TypeError`. -/
  | fault
  /-- `crypto.subtle.verify` returned false: the handler responds
  403 `"Invalid MAC"` (lines 103-105). -/
  | invalidMac
  /-- The expiry check on line 108 fired: the handler responds 403 with
  the expiry message (lines 108-113); `ts` is the asserted timestamp. -/
  | expired (ts : Nat)
  /-- Verification succeeded and the handler proceeds to the fetch. -/
  | ok
deriving DecidableEq, Repr

/-- The verification sequence of the protected branch, lines 83-113 of
the source, for a present raw `verify` parameter:

* line 83: `const [timestamp, hmac] = url.searchParams.get("verify").split("-")`
  — split on every `-`, the first two components are taken (`hmac` is
  `undefined` when there is no `-`);
* line 85: `const assertedTimestamp = Number(timestamp)`;
* line 87: the canonical message is rebuilt from the actually requested
  path and the asserted timestamp (`NaN` renders as `"NaN"`);
* line 89: `Buffer.from(hmac, "base64")`, which throws when `hmac` is
  `undefined`;
* lines 96-105: recompute the MAC of the rebuilt message and compare;
* line 108: `Date.now() / 1000 > assertedTimestamp + EXPIRY` — with
  `nowMs` the exact millisecond clock this is `nowMs > 1000 * (ts + EXPIRY)`,
  and every comparison against `NaN` is false. -/
def verifyProtected (macFn : String → List Nat) (path raw : String) (nowMs : Nat) :
    VerifyOutcome :=
  let parts := jsSplit '-' raw
  let timestamp := parts.headD ""
  let hmac := parts[1]?
  let assertedTimestamp := jsNumber timestamp
  let dataToAuthenticate := path ++ jsNumToString assertedTimestamp
  match hmac with
  | none => .fault
  | some hm =>
    let receivedMac := base64Decode hm
    if receivedMac = macFn dataToAuthenticate then
      match assertedTimestamp with
      | some ts => if 1000 * (ts + EXPIRY) < nowMs then .expired ts else .ok
      | none => .ok
    else .invalidMac

/-! ### The request handler -/

/-- Policy classification of a request path (spec section 4.2), read off
the prefix checks the handler performs in order (lines 34, 53, 77). -/
inductive Policy where
  | Public
  | Generate
  | Protected
  | Denied
deriving DecidableEq, Repr

/-- The path classification: the prefix rules of the handler, applied in
source order. -/
def classify (path : String) : Policy :=
  if jsStartsWith path "/assets/" then .Public
  else if jsStartsWith path "/generate/" then .Generate
  else if jsStartsWith path "/uploads/" || jsStartsWith path "/invoices/" then .Protected
  else .Denied

/-- An object stored in the R2 bucket: body and the optional
`httpMetadata.contentType`. -/
structure R2Object where
  body : String
  contentType : Option String
deriving DecidableEq, Repr

/-- The part of an incoming request the handler consults: the URL path
and the value of the `verify` query parameter
(`url.searchParams.get("verify")`, in decoded form; no other query
parameter is ever read). -/
structure Request where
  path : String
  verifyParam : Option String
deriving DecidableEq, Repr

/-- An HTTP response: status, body, and the two headers the worker ever
sets. -/
structure Resp where
  status : Nat
  body : String
  contentType : Option String
  cacheControl : Option String
deriving DecidableEq, Repr

/-- Result of one JavaScript execution of the handler: either a returned
response or a thrown error. -/
inductive JsOutcome where
  | ok (resp : Resp)
  | fault (msg : String)
deriving DecidableEq, Repr

/-- The outcome of a request together with the keys fetched from the R2
bucket, in order, so that storage I/O is observable. -/
structure HandlerResult where
  outcome : JsOutcome
  fetched : List String
deriving DecidableEq, Repr

/-- The `TypeError` thrown by `Buffer.from(undefined, "base64")` when the
raw `verify` value contains no `-` (line 89). -/
def bufferFromUndefinedError : String :=
  "TypeError: The first argument must be of type string or an instance of Buffer, ArrayBuffer, or Array or an Array-like Object. Received undefined"

/-- The body of the expiry response (lines 109-112), with the `Date`
rendering abstracted to the epoch-millisecond value
`(assertedTimestamp + EXPIRY) * 1000` it displays. -/
def expiredMessage (ts : Nat) : String :=
  "URL expired at " ++ natToString ((ts + EXPIRY) * 1000)

/-- The hardcoded default used when no secret is configured (lines 17-19,
`env.SECRET_DATA ?? "my secret symmetric key"`). -/
def defaultSecret : String := "my secret symmetric key"

/-- The whole `fetch` handler (lines 12-134).  `hmacSig key msg` stands
for HMAC-SHA256 under the UTF-8 bytes of `key`; `secretData` is
`env.SECRET_DATA` (`none` when the binding is absent, so that `??`
selects the hardcoded default); `bucket` is the R2 binding; `nowMs` is
the millisecond clock `Date.now()`. -/
def handleRequest (hmacSig : String → String → List Nat) (secretData : Option String)
    (bucket : String → Option R2Object) (nowMs : Nat) (req : Request) : HandlerResult :=
  let macFn := hmacSig (secretData.getD defaultSecret)
  let path := req.path
  if jsStartsWith path "/assets/" then
    let objectKey := jsSubstring path 1
    match bucket objectKey with
    | none => ⟨.ok ⟨404, "Object Not Found", none, none⟩, [objectKey]⟩
    | some obj =>
      ⟨.ok ⟨200, obj.body, some (jsOrDefault obj.contentType "application/octet-stream"),
        some "public, max-age=86400"⟩, [objectKey]⟩
  else if jsStartsWith path "/generate/" then
    let newPath := jsReplaceFirst path "/generate/" "/"
    let timestamp := nowMs / 1000
    ⟨.ok ⟨200, newPath ++ "?verify=" ++ signToken macFn newPath timestamp, none, none⟩, []⟩
  else if jsStartsWith path "/uploads/" || jsStartsWith path "/invoices/" then
    match req.verifyParam with
    | none => ⟨.ok ⟨403, "Authentication required", none, none⟩, []⟩
    | some raw =>
      match verifyProtected macFn path raw nowMs with
      | .fault => ⟨.fault bufferFromUndefinedError, []⟩
      | .invalidMac => ⟨.ok ⟨403, "Invalid MAC", none, none⟩, []⟩
      | .expired ts => ⟨.ok ⟨403, expiredMessage ts, none, none⟩, []⟩
      | .ok =>
        let objectKey := jsSubstring path 1
        match bucket objectKey with
        | none => ⟨.ok ⟨404, "Object Not Found", none, none⟩, [objectKey]⟩
        | some obj =>
          ⟨.ok ⟨200, obj.body, some (jsOrDefault obj.contentType "application/octet-stream"),
            some "private, no-store"⟩, [objectKey]⟩
  else ⟨.ok ⟨403, "Access denied", none, none⟩, []⟩

/-! ### Concrete instances used by witnesses and counterexamples -/

/-- A concrete stand-in MAC function used to instantiate the abstract
HMAC parameter in closed statements: the bytes of the message characters
reduced modulo 256. -/
def demoMac (s : String) : List Nat := s.data.map (fun c => c.toNat % 256)

/-- A concrete keyed stand-in for HMAC-SHA256. -/
def demoHmacSig (key msg : String) : List Nat := demoMac (key ++ msg)

/-- A bucket with no objects. -/
def emptyBucket : String → Option R2Object := fun _ => none

/-! ### Basic lemmas about the string and number models -/

theorem data_append (a b : String) : (a ++ b).data = a.data ++ b.data := by
  cases a; cases b; rfl

theorem digitVal_digitChar : ∀ d, d < 10 → digitVal (digitChar d) = d := by decide

theorem digitChar_isDigit : ∀ d, d < 10 → (digitChar d).isDigit = true := by decide

theorem natToDigitsAux_all_digit :
    ∀ fuel n, n < fuel → (natToDigitsAux fuel n).all Char.isDigit = true := by
  intro fuel
  induction fuel with
  | zero => intro n h; omega
  | succ f ih =>
    intro n h
    rw [natToDigitsAux]
    by_cases h10 : n < 10
    · simp [h10, digitChar_isDigit n h10]
    · have hd : n / 10 < f := by omega
      simp only [h10, if_false, List.all_append, ih _ hd, Bool.true_and, List.all_cons,
        List.all_nil, Bool.and_true]
      exact digitChar_isDigit _ (by omega)

theorem digitsToNat_natToDigitsAux :
    ∀ fuel n, n < fuel → digitsToNat (natToDigitsAux fuel n) = n := by
  intro fuel
  induction fuel with
  | zero => intro n h; omega
  | succ f ih =>
    intro n h
    rw [natToDigitsAux]
    by_cases h10 : n < 10
    · simp [h10, digitsToNat, digitVal_digitChar n h10]
    · have hd : n / 10 < f := by omega
      simp only [h10, if_false]
      unfold digitsToNat
      rw [List.foldl_append]
      have := ih _ hd
      unfold digitsToNat at this
      rw [this]
      simp [digitVal_digitChar (n % 10) (by omega)]
      omega

theorem jsNumber_natToString (n : Nat) : jsNumber (natToString n) = some n := by
  unfold jsNumber natToString
  simp only [natToDigitsAux_all_digit (n + 1) n (by omega), if_true]
  rw [digitsToNat_natToDigitsAux (n + 1) n (by omega)]

theorem natToString_no_dash (n : Nat) : '-' ∉ (natToString n).data := by
  intro hmem
  have hall := natToDigitsAux_all_digit (n + 1) n (by omega)
  rw [List.all_eq_true] at hall
  have := hall _ hmem
  simp [Char.isDigit] at this

/-! ### Split lemmas -/

theorem splitCharAux_no_sep (sep : Char) :
    ∀ (b acc : List Char), sep ∉ b → splitCharAux sep b acc = [acc.reverse ++ b] := by
  intro b
  induction b with
  | nil => intro acc _; simp [splitCharAux]
  | cons c cs ih =>
    intro acc h
    have hc : ¬ c = sep := fun hh => h (by simp [hh])
    have hcs : sep ∉ cs := fun hh => h (by simp [hh])
    simp only [splitCharAux, hc, if_false, ih _ hcs, List.reverse_cons, List.append_assoc,
      List.singleton_append]

theorem splitCharAux_sep_mid (sep : Char) :
    ∀ (a : List Char) (b acc : List Char), sep ∉ a →
      splitCharAux sep (a ++ sep :: b) acc = (acc.reverse ++ a) :: splitCharAux sep b [] := by
  intro a
  induction a with
  | nil => intro b acc _; simp [splitCharAux]
  | cons c cs ih =>
    intro b acc h
    have hc : ¬ c = sep := fun hh => h (by simp [hh])
    have hcs : sep ∉ cs := fun hh => h (by simp [hh])
    rw [List.cons_append]
    show splitCharAux sep (c :: (cs ++ sep :: b)) acc = _
    rw [splitCharAux]
    simp only [hc, if_false]
    rw [ih _ _ hcs]
    simp [List.reverse_cons, List.append_assoc]

theorem jsSplit_append_dash (x y : String) (hx : '-' ∉ x.data) (hy : '-' ∉ y.data) :
    jsSplit '-' (x ++ "-" ++ y) = [x, y] := by
  unfold jsSplit
  have hdata : (x ++ "-" ++ y).data = x.data ++ '-' :: y.data := by
    rw [data_append, data_append]
    show x.data ++ ['-'] ++ y.data = _
    simp
  rw [hdata, splitCharAux_sep_mid '-' x.data y.data [] hx, splitCharAux_no_sep '-' y.data [] hy]
  simp

/-! ### Base64 lemmas -/

theorem decodeChar_b64Char : ∀ v, v < 64 → decodeChar (b64Char v) = some v := by decide

theorem decodeChar_pad : decodeChar '=' = none := by decide

theorem b64Char_ne_dash : ∀ v, b64Char v ≠ '-' := by
  intro v
  by_cases h : v < 64
  · revert h; revert v; decide
  · unfold b64Char
    rw [List.getD_eq_default _ _ (by simp [b64Alphabet]; omega)]
    decide

theorem encodeAux_no_dash : ∀ bs, '-' ∉ encodeAux bs := by
  intro bs
  induction bs using encodeAux.induct with
  | case1 => simp [encodeAux]
  | case2 b1 =>
    simp only [encodeAux, List.mem_cons, List.not_mem_nil, or_false]
    push_neg
    exact ⟨(b64Char_ne_dash _).symm, (b64Char_ne_dash _).symm, by decide, by decide⟩
  | case3 b1 b2 =>
    simp only [encodeAux, List.mem_cons, List.not_mem_nil, or_false]
    push_neg
    exact ⟨(b64Char_ne_dash _).symm, (b64Char_ne_dash _).symm, (b64Char_ne_dash _).symm, by decide⟩
  | case4 b1 b2 b3 rest ih =>
    simp only [encodeAux, List.mem_cons]
    push_neg
    exact ⟨(b64Char_ne_dash _).symm, (b64Char_ne_dash _).symm, (b64Char_ne_dash _).symm,
      (b64Char_ne_dash _).symm, ih⟩

theorem base64Encode_no_dash (bs : List Nat) : '-' ∉ (base64Encode bs).data :=
  encodeAux_no_dash bs

theorem base64Decode_encode (bs : List Nat) (hb : ∀ b ∈ bs, b < 256) :
    base64Decode (base64Encode bs) = bs := by
  unfold base64Decode base64Encode
  show b64Group ((encodeAux bs).filterMap decodeChar) = bs
  induction bs using encodeAux.induct with
  | case1 => simp [encodeAux, b64Group]
  | case2 b1 =>
    have h1 : b1 < 256 := hb b1 (by simp)
    rw [encodeAux]
    simp only [List.filterMap_cons, decodeChar_b64Char (b1 / 4) (by omega),
      decodeChar_b64Char (b1 % 4 * 16) (by omega), decodeChar_pad, List.filterMap_nil]
    unfold b64Group
    congr 1
    omega
  | case3 b1 b2 =>
    have h1 : b1 < 256 := hb b1 (by simp)
    have h2 : b2 < 256 := hb b2 (by simp)
    rw [encodeAux]
    simp only [List.filterMap_cons, decodeChar_b64Char (b1 / 4) (by omega),
      decodeChar_b64Char (b1 % 4 * 16 + b2 / 16) (by omega),
      decodeChar_b64Char (b2 % 16 * 4) (by omega), decodeChar_pad, List.filterMap_nil]
    unfold b64Group
    congr 2
    · omega
    · omega
  | case4 b1 b2 b3 rest ih =>
    have h1 : b1 < 256 := hb b1 (by simp)
    have h2 : b2 < 256 := hb b2 (by simp)
    have h3 : b3 < 256 := hb b3 (by simp)
    have hrest : ∀ b ∈ rest, b < 256 := fun b hbm => hb b (by simp [hbm])
    rw [encodeAux]
    simp only [List.filterMap_cons, decodeChar_b64Char (b1 / 4) (by omega),
      decodeChar_b64Char (b1 % 4 * 16 + b2 / 16) (by omega),
      decodeChar_b64Char (b2 % 16 * 4 + b3 / 64) (by omega),
      decodeChar_b64Char (b3 % 64) (by omega)]
    rw [b64Group]
    rw [ih hrest]
    congr 3
    · omega
    · omega
    · omega

/-! ### The canonical-token evaluation lemma

For a token in the serialized form `"<timestamp>-<base64(mac)>"` with
`mac` a genuine byte list, verification reduces to the byte-exact MAC
comparison followed by the expiry comparison. -/

theorem verifyProtected_canonical (macFn : String → List Nat) (p : String) (ts : Nat)
    (mac : List Nat) (nowMs : Nat) (hb : ∀ b ∈ mac, b < 256) :
    verifyProtected macFn p (natToString ts ++ "-" ++ base64Encode mac) nowMs =
      (if mac = macFn (canonicalMessage p ts) then
        (if 1000 * (ts + EXPIRY) < nowMs then .expired ts else .ok)
      else .invalidMac) := by
  unfold verifyProtected
  rw [jsSplit_append_dash _ _ (natToString_no_dash ts) (base64Encode_no_dash mac)]
  simp only [List.headD_cons, List.getElem?_cons_succ, List.getElem?_cons_zero,
    jsNumber_natToString, base64Decode_encode mac hb]
  rfl

theorem string_data_inj {a b : String} (h : a.data = b.data) : a = b := by
  cases a; cases b; cases h; rfl

theorem jsSplit_token_junk (x y z : String) (hx : '-' ∉ x.data) (hy : '-' ∉ y.data)
    (hz : '-' ∉ z.data) :
    jsSplit '-' (x ++ "-" ++ y ++ "-" ++ z) = [x, y, z] := by
  unfold jsSplit
  have hdash : ("-" : String).data = ['-'] := rfl
  have hdata : (x ++ "-" ++ y ++ "-" ++ z).data =
      x.data ++ '-' :: (y.data ++ '-' :: z.data) := by
    rw [data_append, data_append, data_append, data_append, hdash]
    simp
  rw [hdata, splitCharAux_sep_mid '-' x.data _ [] hx,
    splitCharAux_sep_mid '-' y.data _ [] hy, splitCharAux_no_sep '-' z.data [] hz]
  simp

/-! ### Classification lemmas -/

theorem classify_eq_public (p : String) :
    classify p = .Public ↔ jsStartsWith p "/assets/" = true := by
  unfold classify
  cases h1 : jsStartsWith p "/assets/" <;> cases h2 : jsStartsWith p "/generate/" <;>
    cases h3 : jsStartsWith p "/uploads/" <;> cases h4 : jsStartsWith p "/invoices/" <;>
      simp [h1, h2, h3, h4]

theorem classify_eq_protected (p : String) :
    classify p = .Protected ↔
      jsStartsWith p "/assets/" = false ∧ jsStartsWith p "/generate/" = false ∧
        (jsStartsWith p "/uploads/" = true ∨ jsStartsWith p "/invoices/" = true) := by
  unfold classify
  cases h1 : jsStartsWith p "/assets/" <;> cases h2 : jsStartsWith p "/generate/" <;>
    cases h3 : jsStartsWith p "/uploads/" <;> cases h4 : jsStartsWith p "/invoices/" <;>
      simp [h1, h2, h3, h4]

theorem classify_eq_denied (p : String) :
    classify p = .Denied ↔
      jsStartsWith p "/assets/" = false ∧ jsStartsWith p "/generate/" = false ∧
        jsStartsWith p "/uploads/" = false ∧ jsStartsWith p "/invoices/" = false := by
  unfold classify
  cases h1 : jsStartsWith p "/assets/" <;> cases h2 : jsStartsWith p "/generate/" <;>
    cases h3 : jsStartsWith p "/uploads/" <;> cases h4 : jsStartsWith p "/invoices/" <;>
      simp [h1, h2, h3, h4]

/-! ### The claims -/

/-- C1.  Round-trip validity: for every path `p`, every issue time `t`
(in whole seconds, the granularity at which the issuer records the
timestamp), and every verification instant between `t` and `t + EXPIRY`
inclusive (measured here on the millisecond clock `tMs`, so that
`1000 * t ≤ tMs ≤ 1000 * (t + EXPIRY)`), verifying the token produced by
issuing for `p` at time `t` against the same path `p` returns Ok.  The
MAC function is the abstract HMAC primitive, whose output is a byte
sequence. -/
theorem roundtrip_validity (macFn : String → List Nat) (p : String) (t tMs : Nat)
    (hb : ∀ b ∈ macFn (canonicalMessage p t), b < 256)
    (h1 : 1000 * t ≤ tMs) (h2 : tMs ≤ 1000 * (t + EXPIRY)) :
    verifyProtected macFn p (signToken macFn p t) tMs = .ok := by
  unfold signToken
  rw [verifyProtected_canonical macFn p t _ tMs hb]
  rw [if_pos rfl, if_neg (by omega)]

/-- Witness for C1 at the concrete scenario of the spec: path
`/uploads/file.txt`, timestamp 1700000000, verification 500 seconds
later. -/
theorem roundtrip_validity_witness :
    verifyProtected demoMac "/uploads/file.txt"
      (signToken demoMac "/uploads/file.txt" 1700000000) 1700000500000 = .ok :=
  roundtrip_validity demoMac "/uploads/file.txt" 1700000000 1700000500000
    (by decide) (by decide) (by decide)

/-- C2, counterexample.  The claimed invariant requires
`timestamp <= now` for acceptance, but the code never checks a lower
time bound: a token carrying timestamp 1700000000 is accepted at
`now = 1699999999` seconds (millisecond clock 1699999999000), one second
before its own timestamp, so acceptance is not equivalent to
`timestamp <= now <= timestamp + EXPIRY` together with the MAC match. -/
theorem token_validity_counterexample :
    verifyProtected demoMac "/uploads/file.txt"
        (signToken demoMac "/uploads/file.txt" 1700000000) 1699999999000 = .ok ∧
      1699999999000 < 1000 * 1700000000 := by
  constructor
  · decide
  · decide

/-- C2, amended.  A token `(ts, mac)` presented for path `p` is accepted
at millisecond time `nowMs` if and only if `nowMs ≤ 1000 * (ts + EXPIRY)`
(no lower time bound is enforced, so a token whose timestamp lies in the
future is accepted when its MAC is valid) and the MAC recomputed over
`CanonicalMessage(p, ts)` equals the token MAC byte-exactly; and a
correctly MACed token verified at `ts + EXPIRY + 1` seconds yields the
Expired outcome. -/
theorem token_validity_amended (macFn : String → List Nat) (p : String) (ts : Nat)
    (mac : List Nat) (nowMs : Nat) (hb : ∀ b ∈ mac, b < 256) :
    (verifyProtected macFn p (natToString ts ++ "-" ++ base64Encode mac) nowMs = .ok ↔
      (nowMs ≤ 1000 * (ts + EXPIRY) ∧ mac = macFn (canonicalMessage p ts))) ∧
    (mac = macFn (canonicalMessage p ts) →
      verifyProtected macFn p (natToString ts ++ "-" ++ base64Encode mac)
        (1000 * (ts + EXPIRY + 1)) = .expired ts) := by
  constructor
  · rw [verifyProtected_canonical macFn p ts mac nowMs hb]
    constructor
    · intro h
      by_cases hm : mac = macFn (canonicalMessage p ts)
      · refine ⟨?_, hm⟩
        rw [if_pos hm] at h
        by_cases he : 1000 * (ts + EXPIRY) < nowMs
        · rw [if_pos he] at h
          exact absurd h (by simp)
        · omega
      · rw [if_neg hm] at h
        exact absurd h (by simp)
    · rintro ⟨hnow, hm⟩
      rw [if_pos hm, if_neg (by omega)]
  · intro hm
    rw [verifyProtected_canonical macFn p ts mac _ hb, if_pos hm, if_pos (by omega)]

/-- Witness for the amended C2: a valid token accepted inside the window
through the equivalence, at a different instant than the C1 witness. -/
theorem token_validity_amended_witness :
    verifyProtected demoMac "/invoices/march.pdf"
      (natToString 1700000000 ++ "-" ++
        base64Encode (demoMac (canonicalMessage "/invoices/march.pdf" 1700000000)))
      1700000600000 = .ok :=
  (token_validity_amended demoMac "/invoices/march.pdf" 1700000000
      (demoMac (canonicalMessage "/invoices/march.pdf" 1700000000)) 1700000600000
      (by decide)).1.mpr ⟨by decide, rfl⟩

/-- C5.  Path binding: verifying the unmodified token issued for `p1` at
time `t` against a different path `p2` at the same time returns the
MacMismatch outcome (the 403 Invalid MAC response), because the verifier
recomputes the canonical message from the actually requested path; the
abstract HMAC is assumed collision-free at the two canonical messages
involved, which differ whenever `p1 ≠ p2`. -/
theorem path_binding (macFn : String → List Nat) (p1 p2 : String) (t : Nat)
    (hne : p1 ≠ p2)
    (hb : ∀ b ∈ macFn (canonicalMessage p1 t), b < 256)
    (hcoll : macFn (canonicalMessage p2 t) = macFn (canonicalMessage p1 t) →
      canonicalMessage p2 t = canonicalMessage p1 t) :
    verifyProtected macFn p2 (signToken macFn p1 t) (1000 * t) = .invalidMac := by
  unfold signToken
  rw [verifyProtected_canonical macFn p2 t _ (1000 * t) hb]
  rw [if_neg]
  intro h
  have hmsg := hcoll h.symm
  unfold canonicalMessage at hmsg
  have hdata := congrArg String.data hmsg
  rw [data_append, data_append] at hdata
  have hpaths : p2.data = p1.data := List.append_cancel_right hdata
  exact hne (string_data_inj hpaths).symm

/-- Witness for C5: the token for `/uploads/a.txt` is rejected on
`/uploads/b.txt` with the Invalid MAC outcome. -/
theorem path_binding_witness :
    verifyProtected demoMac "/uploads/b.txt"
      (signToken demoMac "/uploads/a.txt" 1700000000) (1000 * 1700000000) = .invalidMac :=
  path_binding demoMac "/uploads/a.txt" "/uploads/b.txt" 1700000000
    (by decide) (by decide) (by decide)

/-- C6.  The canonical message construction, concatenating the path and
the decimal timestamp with no delimiter, is not injective: the distinct
pairs `("/a1", 23)` and `("/a", 123)` produce the same message string
`"/a123"` and therefore the same MAC input. -/
theorem canonical_message_not_injective :
    canonicalMessage "/a1" 23 = canonicalMessage "/a" 123 ∧
      (("/a1" : String), (23 : Nat)) ≠ (("/a" : String), (123 : Nat)) := by
  constructor
  · decide
  · decide

/-- C3.  The claim says the verification path never propagates an
unhandled fault, decode failures being normalized to the
InvalidToken/MacMismatch outcomes.  The code contradicts this stated
policy: on a Protected path with a `verify` value containing no `-`, the
destructuring on line 83 leaves `hmac` undefined and
`Buffer.from(undefined, "base64")` on line 89 throws a `TypeError` that
nothing catches, so the handler faults instead of returning a 403.  This
theorem evaluates the embedded handler at such a failing input. -/
theorem verify_no_hyphen_faults :
    handleRequest demoHmacSig (some "test-secret") emptyBucket 1700000000000
      ⟨"/uploads/file.txt", some "deadbeef"⟩ =
      ⟨.fault bufferFromUndefinedError, []⟩ := by
  decide

/-- C4, counterexample.  The claim says the mac substring obtained by
splitting at the first `-` must be valid standard base64, and that every
violation yields ParseError (InvalidToken) without reaching the MAC
comparison.  Appending `-x` to a valid token makes that substring
`<base64 mac>-x`, which is not valid standard base64; yet the code,
which splits on every `-` and keeps only the first two components,
accepts the token outright. -/
theorem token_parsing_counterexample :
    verifyProtected demoMac "/uploads/file.txt"
      (signToken demoMac "/uploads/file.txt" 1700000000 ++ "-x") 1700000000000 = .ok := by
  decide

/-- C4, amended.  Token parsing splits the raw `verify` parameter on
every `-` character and takes the first two components as the timestamp
and mac substrings; no validation is performed and execution always
proceeds to the MAC comparison — in particular a well-formed token with
`-`-separated trailing junk appended still verifies — while a raw value
containing no `-` at all raises a decode fault instead of any
ParseError outcome. -/
theorem token_parsing_amended :
    (∀ (macFn : String → List Nat) (p : String) (ts nowMs : Nat),
      (∀ b ∈ macFn (canonicalMessage p ts), b < 256) → nowMs ≤ 1000 * (ts + EXPIRY) →
      verifyProtected macFn p (signToken macFn p ts ++ "-x") nowMs = .ok) ∧
    (∀ (macFn : String → List Nat) (p raw : String) (nowMs : Nat), '-' ∉ raw.data →
      verifyProtected macFn p raw nowMs = .fault) := by
  constructor
  · intro macFn p ts nowMs hb hnow
    have hs : signToken macFn p ts ++ "-x" =
        natToString ts ++ "-" ++ base64Encode (macFn (canonicalMessage p ts)) ++ "-" ++ "x" := by
      apply string_data_inj
      unfold signToken
      simp [data_append]
    rw [hs]
    unfold verifyProtected
    rw [jsSplit_token_junk _ _ _ (natToString_no_dash ts) (base64Encode_no_dash _) (by decide)]
    simp only [List.headD_cons, List.getElem?_cons_succ, List.getElem?_cons_zero,
      jsNumber_natToString, base64Decode_encode _ hb]
    show (if macFn (canonicalMessage p ts) = macFn (canonicalMessage p ts) then
        (if 1000 * (ts + EXPIRY) < nowMs then VerifyOutcome.expired ts else .ok)
      else .invalidMac) = .ok
    rw [if_pos rfl, if_neg (by omega)]
  · intro macFn p raw nowMs h
    unfold verifyProtected jsSplit
    rw [splitCharAux_no_sep '-' raw.data [] h]
    simp

/-- Witness for the amended C4: a junk-extended token is accepted on an
`/invoices/` path, and a hyphen-free value faults. -/
theorem token_parsing_amended_witness :
    verifyProtected demoMac "/invoices/doc.pdf"
        (signToken demoMac "/invoices/doc.pdf" 1600000000 ++ "-x") 1600000000000 = .ok ∧
      verifyProtected demoMac "/uploads/a" "zzz" 5 = .fault :=
  ⟨token_parsing_amended.1 demoMac "/invoices/doc.pdf" 1600000000 1600000000000
      (by decide) (by decide),
    token_parsing_amended.2 demoMac "/uploads/a" "zzz" 5 (by decide)⟩

/-- C7, counterexample.  The claim says every verification failure on a
Protected request — including a parse failure — makes the handler return
the 403 response without a storage fetch.  At the parse failure given by
a `verify` value with no `-`, the handler does not return any response:
it throws (the fault of C3).  No storage fetch happens either way. -/
theorem verify_short_circuit_counterexample :
    (handleRequest demoHmacSig (some "test-secret") emptyBucket 1700000000000
        ⟨"/invoices/january.pdf", some "xyz"⟩).fetched = [] ∧
      ¬ ∃ r, (handleRequest demoHmacSig (some "test-secret") emptyBucket 1700000000000
        ⟨"/invoices/january.pdf", some "xyz"⟩).outcome = JsOutcome.ok r := by
  refine ⟨by decide, ?_⟩
  rintro ⟨r, hr⟩
  have h : (handleRequest demoHmacSig (some "test-secret") emptyBucket 1700000000000
      ⟨"/invoices/january.pdf", some "xyz"⟩).outcome = .fault bufferFromUndefinedError := by
    decide
  rw [h] at hr
  exact absurd hr (by simp)

/-- C7, amended.  On every Protected request the Verifier runs strictly
before the ObjectFetcher: whenever verification does not succeed, no
storage fetch is performed; the missing-parameter, MAC-mismatch and
expiry failures return a 403 response, while the hyphen-free parse
failure raises a fault (still before any storage I/O). -/
theorem verify_short_circuit_amended (hmacSig : String → String → List Nat)
    (secretData : Option String) (bucket : String → Option R2Object) (nowMs : Nat)
    (p : String) (v : Option String) (hp : classify p = .Protected) :
    (v = none → handleRequest hmacSig secretData bucket nowMs ⟨p, v⟩ =
      ⟨.ok ⟨403, "Authentication required", none, none⟩, []⟩) ∧
    (∀ raw, v = some raw →
      verifyProtected (hmacSig (secretData.getD defaultSecret)) p raw nowMs ≠ .ok →
      (handleRequest hmacSig secretData bucket nowMs ⟨p, v⟩).fetched = [] ∧
        ((handleRequest hmacSig secretData bucket nowMs ⟨p, v⟩).outcome =
            .fault bufferFromUndefinedError ∨
          ∃ r, (handleRequest hmacSig secretData bucket nowMs ⟨p, v⟩).outcome = .ok r ∧
            r.status = 403)) := by
  obtain ⟨h1, h2, h3⟩ := (classify_eq_protected p).mp hp
  have hcond : (jsStartsWith p "/uploads/" || jsStartsWith p "/invoices/") = true := by
    rcases h3 with h | h <;> simp [h]
  constructor
  · intro hv
    subst hv
    simp only [handleRequest, h1, h2, hcond, Bool.false_eq_true, if_false, if_true]
  · intro raw hv hfail
    subst hv
    simp only [handleRequest, h1, h2, hcond, Bool.false_eq_true, if_false, if_true]
    cases hout : verifyProtected (hmacSig (secretData.getD defaultSecret)) p raw nowMs with
    | fault => exact ⟨rfl, Or.inl rfl⟩
    | invalidMac => exact ⟨rfl, Or.inr ⟨_, rfl, rfl⟩⟩
    | expired ts => exact ⟨rfl, Or.inr ⟨_, rfl, rfl⟩⟩
    | ok => exact absurd hout hfail

/-- Witness for the amended C7: the missing-parameter case at a concrete
Protected path. -/
theorem verify_short_circuit_amended_witness :
    handleRequest demoHmacSig (some "k") emptyBucket 0 ⟨"/uploads/x", none⟩ =
      ⟨.ok ⟨403, "Authentication required", none, none⟩, []⟩ :=
  (verify_short_circuit_amended demoHmacSig (some "k") emptyBucket 0 "/uploads/x" none
    (by decide)).1 rfl

/-- C8.  Path classification is a pure function of the path applying the
prefix rules in source order — `/assets/` gives Public, then
`/generate/` gives Generate, then `/uploads/` or `/invoices/` gives
Protected, otherwise Denied — and every Denied path is answered with the
403 Access denied response, for every value of the `verify` query
parameter, with no storage fetch and no verification performed. -/
theorem classification_and_denied :
    (∀ p : String,
      (jsStartsWith p "/assets/" = true → classify p = .Public) ∧
      (jsStartsWith p "/assets/" = false → jsStartsWith p "/generate/" = true →
        classify p = .Generate) ∧
      (jsStartsWith p "/assets/" = false → jsStartsWith p "/generate/" = false →
        (jsStartsWith p "/uploads/" = true ∨ jsStartsWith p "/invoices/" = true) →
        classify p = .Protected) ∧
      (jsStartsWith p "/assets/" = false → jsStartsWith p "/generate/" = false →
        jsStartsWith p "/uploads/" = false → jsStartsWith p "/invoices/" = false →
        classify p = .Denied)) ∧
    (∀ (hmacSig : String → String → List Nat) (secretData : Option String)
        (bucket : String → Option R2Object) (nowMs : Nat) (p : String) (v : Option String),
      classify p = .Denied →
      handleRequest hmacSig secretData bucket nowMs ⟨p, v⟩ =
        ⟨.ok ⟨403, "Access denied", none, none⟩, []⟩) := by
  constructor
  · intro p
    refine ⟨fun h1 => ?_, fun h1 h2 => ?_, fun h1 h2 h3 => ?_, fun h1 h2 h3 h4 => ?_⟩
    · exact (classify_eq_public p).mpr h1
    · unfold classify
      simp [h1, h2]
    · exact (classify_eq_protected p).mpr ⟨h1, h2, h3⟩
    · exact (classify_eq_denied p).mpr ⟨h1, h2, h3, h4⟩
  · intro hmacSig secretData bucket nowMs p v hd
    obtain ⟨h1, h2, h3, h4⟩ := (classify_eq_denied p).mp hd
    simp only [handleRequest, h1, h2, h3, h4, Bool.false_eq_true, if_false, Bool.or_self]

/-- Witness for C8: the unmatched path of the spec, carrying a `verify`
parameter, is Denied and answered 403 with no fetch. -/
theorem classification_and_denied_witness :
    classify "/other/x" = .Denied ∧
      handleRequest demoHmacSig (some "k") emptyBucket 0 ⟨"/other/x", some "1-2"⟩ =
        ⟨.ok ⟨403, "Access denied", none, none⟩, []⟩ :=
  ⟨(classification_and_denied.1 "/other/x").2.2.2 (by decide) (by decide) (by decide) (by decide),
    classification_and_denied.2 demoHmacSig (some "k") emptyBucket 0 "/other/x" (some "1-2")
      (by decide)⟩

/-- C9.  When `env.SECRET_DATA` is absent the handler falls back to the
hardcoded default key `"my secret symmetric key"`: for every request it
behaves identically to a run configured with that default secret string,
instead of failing with a configuration error. -/
theorem default_secret_fallback (hmacSig : String → String → List Nat)
    (bucket : String → Option R2Object) (nowMs : Nat) (req : Request) :
    handleRequest hmacSig none bucket nowMs req =
      handleRequest hmacSig (some defaultSecret) bucket nowMs req := rfl

/-- C10.  For every Public request, and for every Protected request
whose verification succeeds, the single key passed to the blob store is
the full request path with only the leading slash removed
(`path.substring(1)`, so the `/assets/`, `/uploads/` or `/invoices/`
prefix remains part of the object key), and the derivation is the same
expression for both branches. -/
theorem object_key_derivation (hmacSig : String → String → List Nat)
    (secretData : Option String) (bucket : String → Option R2Object) (nowMs : Nat)
    (p : String) (v : Option String)
    (h : classify p = .Public ∨
      (classify p = .Protected ∧ ∃ raw, v = some raw ∧
        verifyProtected (hmacSig (secretData.getD defaultSecret)) p raw nowMs = .ok)) :
    (handleRequest hmacSig secretData bucket nowMs ⟨p, v⟩).fetched = [jsSubstring p 1] := by
  rcases h with hpub | ⟨hprot, raw, hv, hok⟩
  · have h1 := (classify_eq_public p).mp hpub
    simp only [handleRequest, h1, if_true]
    cases bucket (jsSubstring p 1) <;> rfl
  · obtain ⟨h1, h2, h3⟩ := (classify_eq_protected p).mp hprot
    have hcond : (jsStartsWith p "/uploads/" || jsStartsWith p "/invoices/") = true := by
      rcases h3 with h | h <;> simp [h]
    subst hv
    simp only [handleRequest, h1, h2, hcond, Bool.false_eq_true, if_false, if_true]
    rw [hok]
    cases bucket (jsSubstring p 1) <;> rfl

/-- Witness for C10: the Public asset path of the spec maps to the
object key `assets/logo.png`, keeping its prefix. -/
theorem object_key_derivation_witness :
    (handleRequest demoHmacSig (some "k") emptyBucket 0
      ⟨"/assets/logo.png", none⟩).fetched = ["assets/logo.png"] := by
  rw [object_key_derivation demoHmacSig (some "k") emptyBucket 0 "/assets/logo.png" none
    (Or.inl (by decide))]
  decide

end SignedUrls
